import Mathlib

/-!
Verification of the research-assistant RAG core: a shallow embedding of the
citation formatter (`src/utils/formatters.py`), the conversation memory
manager (`src/memory/conversation_memory.py`), the document splitter
(`src/processing/text_splitter.py`), the three agent tools
(`src/tools/*.py`), the retrieval QA chain (`src/chains/retrieval_qa.py`)
and the research agent (`src/agent/research_agent.py`), together with
proofs of the behavioural properties stated in the specification.

Python strings are modelled as Lean `String`, Python `dict.get` with a
default as `Option.getD`, Python exceptions as `Except String`, and the
LangChain collaborators (vector store, LLM, web client, agent executor)
as explicit function-valued oracles.
-/

namespace ResearchAssistant

/-! ## Data model: LangChain documents and citations (`formatters.py`) -/

/-- Provenance metadata attached to a retrieved chunk.  In the source this
is the Python dict `{filename, page, chunk_id, ...}`; absent keys are
modelled with `none` (`dict.get` supplies the defaults).  The `page`
value is kept as its string rendering, matching its use inside the
f-string key `f"{filename}:page{page}"`. -/
structure DocMeta where
  filename : Option String
  page : Option String
  chunk_id : Option Nat
deriving DecidableEq, Repr

/-- A LangChain `Document`: the chunk text plus its metadata. -/
structure Document where
  page_content : String
  metadata : DocMeta
deriving DecidableEq, Repr

/-- `doc.metadata.get('filename', 'Unknown')`. -/
def getFilename (m : DocMeta) : String := m.filename.getD "Unknown"

/-- `doc.metadata.get('page', '?')`. -/
def getPage (m : DocMeta) : String := m.page.getD "?"

/-- The dedup key built in `format_answer_with_sources`:
`source_id = f"{filename}:page{page}"` with the same defaults. -/
def sourceId (d : Document) : String :=
  getFilename d.metadata ++ ":page" ++ getPage d.metadata

/-- The `(filename, page)` pair (after default substitution) that the
specification says citations are deduplicated on. -/
def pairOf (d : Document) : String × String :=
  (getFilename d.metadata, getPage d.metadata)

/-- One citation dict, as appended by `format_answer_with_sources`. -/
structure Citation where
  filename : String
  page : String
  content_preview : String
  chunk_id : Option Nat
deriving DecidableEq, Repr

/-- The citation built for one document:
`{'filename': ..., 'page': ..., 'content_preview': doc.page_content[:200] + "...", 'chunk_id': ...}`. -/
def mkCitation (d : Document) : Citation :=
  { filename := getFilename d.metadata
    page := getPage d.metadata
    content_preview := String.mk (d.page_content.data.take 200) ++ "..."
    chunk_id := d.metadata.chunk_id }

/-- The loop of `format_answer_with_sources`: walk the sources, skip a
document whose `source_id` is already in `seen_sources`, otherwise emit
its citation and record the id. -/
def citeLoop : List Document → List String → List Citation
  | [], _ => []
  | d :: rest, seen =>
    if sourceId d ∈ seen then citeLoop rest seen
    else mkCitation d :: citeLoop rest (sourceId d :: seen)

/-- The dict returned by `ResponseFormatter.format_answer_with_sources`. -/
structure FormattedResponse where
  answer : String
  citations : List Citation
  num_sources : Nat
deriving DecidableEq, Repr

/-- `ResponseFormatter.format_answer_with_sources(answer, sources)`. -/
def format_answer_with_sources (answer : String) (sources : List Document) :
    FormattedResponse :=
  let citations := citeLoop sources []
  { answer := answer, citations := citations, num_sources := citations.length }

/-- Specification-side dedup: keep the first occurrence of each key,
preserving first-seen order (`key` abstracts the `(filename, page)`
pair). -/
def firstOccurrences {α β : Type} [DecidableEq β] (key : α → β) :
    List α → List α
  | [] => []
  | a :: rest =>
    a :: firstOccurrences key (rest.filter (fun b => key b ≠ key a))
termination_by l => l.length
decreasing_by
  simp only [List.length_cons]
  exact Nat.lt_succ_of_le (List.length_filter_le _ _)

/-! ## Conversation memory (`conversation_memory.py`) -/

/-- LangChain message kind (`msg.type`): `"human"` or `"ai"`. -/
inductive MsgType where
  | human
  | ai
deriving DecidableEq, Repr

/-- One stored chat message. -/
structure ChatMessage where
  type : MsgType
  content : String
deriving DecidableEq, Repr

/-- State of `ConversationMemoryManager`: the configured mode and window
size plus the backing message store.  Modelled from the spec: the
LangChain `ConversationBufferMemory` / `ConversationBufferWindowMemory`
objects are library code not under `src/`; per the spec (§4.4) the store
is an ordered log of exchanges, each recorded as a human message followed
by an ai message, and windowed mode retains only the most recent `k`
exchanges (the last `2k` messages) when read. -/
structure ConversationMemoryManager where
  memory_type : String
  k : Nat
  messages : List ChatMessage
deriving DecidableEq, Repr

/-- `ConversationMemoryManager.__init__(memory_type, k, ...)`. -/
def mkMemoryManager (memory_type : String) (k : Nat) :
    ConversationMemoryManager :=
  { memory_type := memory_type, k := k, messages := [] }

/-- `add_exchange(question, answer)`: `save_context` appends the human
question message and the ai answer message. -/
def ConversationMemoryManager.add_exchange (m : ConversationMemoryManager)
    (question answer : String) : ConversationMemoryManager :=
  { m with messages :=
      m.messages ++ [⟨MsgType.human, question⟩, ⟨MsgType.ai, answer⟩] }

/-- `memory.load_memory_variables({})["chat_history"]`.  Modelled from the
spec: buffer mode returns every stored message; windowed mode returns the
messages of the most recent `k` exchanges, i.e. the last `2k` messages. -/
def ConversationMemoryManager.loadMessages (m : ConversationMemoryManager) :
    List ChatMessage :=
  if m.memory_type = "buffer" then m.messages
  else m.messages.drop (m.messages.length - 2 * m.k)

/-- `get_history()`: convert each loaded message to a `(role, content)`
dict, `"user"` for human messages and `"assistant"` otherwise. -/
def ConversationMemoryManager.get_history (m : ConversationMemoryManager) :
    List (String × String) :=
  m.loadMessages.map fun msg =>
    (if msg.type = MsgType.human then "user" else "assistant", msg.content)

/-- `clear()`: drop every stored message. -/
def ConversationMemoryManager.clear (m : ConversationMemoryManager) :
    ConversationMemoryManager :=
  { m with messages := [] }

/-- Record a whole list of `(question, answer)` exchanges in order. -/
def recordAll (m : ConversationMemoryManager)
    (exchanges : List (String × String)) : ConversationMemoryManager :=
  exchanges.foldl (fun acc qa => acc.add_exchange qa.1 qa.2) m

/-- The two message dicts one exchange contributes to `get_history`. -/
def exchangeDicts (qa : String × String) : List (String × String) :=
  [("user", qa.1), ("assistant", qa.2)]

/-! ## Document splitter (`text_splitter.py`) -/

/-- Python exceptions carrying their message. -/
abbrev PyExn := String

/-- Default `config.chunk_size` (config.yaml / `Config.chunk_size`). -/
def configChunkSize : Nat := 1000

/-- Default `config.chunk_overlap` (config.yaml / `Config.chunk_overlap`). -/
def configChunkOverlap : Nat := 200

/-- Modelled from the spec: the validation performed by the
`RecursiveCharacterTextSplitter` constructor that `DocumentSplitter.__init__`
delegates to is library code not under `src/`; per the spec (§4.1, §7) an
overlap at least as large as the chunk size is a configuration error
rejected at construction. -/
def textSplitterCheck (chunk_size chunk_overlap : Nat) : Except PyExn Unit :=
  if chunk_size ≤ chunk_overlap then
    Except.error ("Got a larger chunk overlap (" ++ toString chunk_overlap ++
      ") than chunk size (" ++ toString chunk_size ++ "), should be smaller.")
  else Except.ok ()

/-- The splitter object retained by a successful construction. -/
structure DocumentSplitter where
  chunk_size : Nat
  chunk_overlap : Nat
deriving DecidableEq, Repr

/-- `DocumentSplitter.__init__(chunk_size, chunk_overlap)`: `None`
arguments fall back to the config defaults, then construction of the
underlying splitter validates the pair. -/
def DocumentSplitter.init (chunk_size chunk_overlap : Option Nat) :
    Except PyExn DocumentSplitter := do
  let cs := chunk_size.getD configChunkSize
  let co := chunk_overlap.getD configChunkOverlap
  textSplitterCheck cs co
  return { chunk_size := cs, chunk_overlap := co }

/-! ## Agent tools (`tools/*.py`) -/

/-- Substring search over character lists (Python's `in` on strings). -/
def subSearch (pat : List Char) : List Char → Bool
  | [] => pat.isEmpty
  | c :: rest => pat.isPrefixOf (c :: rest) || subSearch pat rest

/-- `pat in s` for Python strings. -/
def strContainsSub (s pat : String) : Bool := subSearch pat.data s.data

/-- Python `s[:n]`: the first `n` characters of a string. -/
def pyTake (s : String) (n : Nat) : String := String.mk (s.data.take n)

/-- Collapse a possibly-raising computation through `try/except Exception`:
the handler turns the exception message into an ordinary return value. -/
def absorbExn (handler : PyExn → String) :
    Except PyExn String → Except PyExn String
  | Except.ok s => Except.ok s
  | Except.error e => Except.ok (handler e)

/-- The formatted block for the documents found by `DocumentSearchTool`. -/
def formatDocResults (docs : List Document) : String :=
  "Found the following information in documents:\n\n" ++
    String.join (docs.enum.map fun p =>
      "[" ++ toString (p.1 + 1) ++ "] Source: " ++ getFilename p.2.metadata ++
      ", Page: " ++ getPage p.2.metadata ++ "\n" ++
      "Content: " ++ pyTake p.2.page_content 300 ++ "...\n\n")

/-- Body of `DocumentSearchTool._run` (inside the `try`):
`similarity` is the vector store's `similarity_search`, which may raise. -/
def documentSearchBody
    (similarity : String → Nat → Except PyExn (List Document))
    (query : String) : Except PyExn String := do
  let docs ← similarity query 4
  if docs.isEmpty then
    return "No relevant information found in uploaded documents."
  else
    return formatDocResults docs

/-- `DocumentSearchTool._run`: the `try/except` wrapper around the body. -/
def documentSearchRun
    (similarity : String → Nat → Except PyExn (List Document))
    (query : String) : Except PyExn String :=
  absorbExn (fun e => "Error searching documents: " ++ e)
    (documentSearchBody similarity query)

/-- One Tavily web search result (`{title, url, content}` with possibly
missing keys). -/
structure WebResult where
  title : Option String
  content : Option String
  url : Option String
deriving DecidableEq, Repr

/-- The external collaborators of `WebSearchTool._run`: whether the tavily
package imports, the `TAVILY_API_KEY` environment value, and the client's
`search` call (which may raise). -/
structure WebEnv where
  tavilyInstalled : Bool
  apiKey : Option String
  search : String → Nat → Except PyExn (List WebResult)

/-- The formatted block for the results found by `WebSearchTool`. -/
def formatWebResults (results : List WebResult) : String :=
  "Found the following information from the web:\n\n" ++
    String.join (results.enum.map fun p =>
      "[" ++ toString (p.1 + 1) ++ "] " ++ p.2.title.getD "No title" ++ "\n" ++
      "URL: " ++ p.2.url.getD "" ++ "\n" ++
      "Summary: " ++ p.2.content.getD "No description" ++ "\n\n")

/-- Body of `WebSearchTool._run` after a successful import: key
validation, the search call, emptiness check and formatting. -/
def webSearchBody (env : WebEnv) (query : String) (maxResults : Nat) :
    Except PyExn String := do
  let keyMissing :=
    match env.apiKey with
    | none => true
    | some s => s = "" || s = "your_tavily_api_key_here"
  if keyMissing then
    return "Tavily API key not configured. Please set TAVILY_API_KEY in your .env file. Get your free API key at: https://tavily.com"
  else
    let results ← env.search query maxResults
    if results.isEmpty then
      return "No web results found for this query."
    else
      return formatWebResults results

/-- The `except Exception` handler of `WebSearchTool._run`: classify the
message by substring before producing a diagnostic. -/
def webSearchHandler (e : PyExn) : String :=
  if strContainsSub e.toLower "api key" || strContainsSub e.toLower "unauthorized" then
    "Invalid Tavily API key. Please check your TAVILY_API_KEY in .env file. Get a free key at: https://tavily.com"
  else if strContainsSub e.toLower "quota" || strContainsSub e.toLower "limit" then
    "Tavily API quota exceeded. Free tier allows 1000 searches per month. Upgrade at: https://tavily.com/pricing"
  else
    "Error performing web search: " ++ e

/-- `WebSearchTool._run`: an `ImportError` is answered with the install
hint; every other exception goes through the classifying handler. -/
def webSearchRun (env : WebEnv) (query : String) (maxResults : Nat) :
    Except PyExn String :=
  if env.tavilyInstalled then
    absorbExn webSearchHandler (webSearchBody env query maxResults)
  else
    Except.ok "Tavily library not installed. Run: uv pip install tavily-python"

/-- The external collaborators of `SummarizationTool._run`: the vector
store search, the map-reduce summarize chain and the direct LLM call. -/
structure SummarizeEnv where
  search : String → Nat → Except PyExn (List Document)
  mapReduceChain : List Document → Except PyExn String
  predict : String → Except PyExn String

/-- Body of `SummarizationTool._run` (inside the `try`). -/
def summarizeBody (env : SummarizeEnv) (instruction : String) :
    Except PyExn String := do
  if strContainsSub instruction.toLower "all documents" then
    let all_docs ← env.search "" 20
    if all_docs.isEmpty then
      return "No documents available to summarize."
    else
      let summary ← env.mapReduceChain all_docs
      return "Summary of all documents:\n\n" ++ summary
  else
    let docs ← env.search instruction 5
    if docs.isEmpty then
      return "No content found to summarize."
    else
      let combined := String.intercalate "\n\n" (docs.map (·.page_content))
      let summary ← env.predict
        ("Summarize the following content concisely:\n\n" ++ pyTake combined 3000)
      return summary

/-- `SummarizationTool._run`: the `try/except` wrapper around the body. -/
def summarizeRun (env : SummarizeEnv) (instruction : String) :
    Except PyExn String :=
  absorbExn (fun e => "Error creating summary: " ++ e)
    (summarizeBody env instruction)

/-! ## Retrieval QA chain (`retrieval_qa.py`) and agent front door
(`research_agent.py`) -/

/-- The dict a LangChain `RetrievalQA` call produces:
`{"result": answer, "source_documents": docs}`. -/
structure QAOutput where
  result : String
  source_documents : List Document

/-- `RetrievalQAChain.ask(question)` on a chain state (`self.chain` is
`None` until `create_chain` ran).  The second component counts how many
times the underlying chain — the only gateway to the embedding and LLM
services — was invoked. -/
def RetrievalQAChain.ask (chain : Option (String → QAOutput))
    (question : String) :
    Except PyExn (String × List Document) × Nat :=
  match chain with
  | none => (Except.error "Chain not created. Call create_chain() first", 0)
  | some c =>
    let r := c question
    (Except.ok (r.result, r.source_documents), 1)

/-- `ResearchAgent.run(query)` on an agent state (`self.agent` is `None`
until `create_agent` ran).  The underlying executor may raise; `run`
converts such an exception into an `"Agent error: ..."` string.  The
second component counts executor invocations. -/
def ResearchAgent.run (agent : Option (String → Except PyExn String))
    (query : String) : Except PyExn String × Nat :=
  match agent with
  | none => (Except.error "Agent not created. Call create_agent() first", 0)
  | some a =>
    match a query with
    | Except.ok s => (Except.ok s, 1)
    | Except.error e => (Except.ok ("Agent error: " ++ e), 1)

/-! ## The ReAct agent loop -/

/-- What the model produces at one Thinking step: either a
`(tool_name, tool_input)` action or a final answer. -/
inductive AgentDecision where
  | act (tool : String) (input : String)
  | answer (text : String)

/-- One Thought/Action/Observation step of the transcript. -/
structure AgentStep where
  tool_name : String
  tool_input : String
  observation : String
deriving DecidableEq, Repr

/-- The outcome of one agent run: a model-emitted final answer, or the
best available answer tagged as iteration-exhausted. -/
inductive AgentOutcome where
  | final (answer : String) (steps : List AgentStep)
  | exhausted (best : String) (steps : List AgentStep)
deriving DecidableEq, Repr

/-- The transcript of an outcome. -/
def AgentOutcome.steps : AgentOutcome → List AgentStep
  | AgentOutcome.final _ s => s
  | AgentOutcome.exhausted _ s => s

/-- The best available answer on iteration exhaustion: the last
observation gathered, if any. -/
def bestAvailable (steps : List AgentStep) : String :=
  (steps.getLast?.map (·.observation)).getD ""

/-- Executing one selected action: run the named tool, or recover from an
unknown/unparsable action with a retry observation. -/
def toolObservation (tools : List (String × (String → String)))
    (name input : String) : String :=
  match tools.lookup name with
  | some f => f input
  | none => "Could not parse action. Please retry with a valid tool call."

/-- Worker of the agent loop, counting down the remaining iterations. -/
def reactGo (tools : List (String × (String → String)))
    (oracle : List AgentStep → AgentDecision) :
    Nat → List AgentStep → AgentOutcome
  | 0, steps => AgentOutcome.exhausted (bestAvailable steps) steps
  | n + 1, steps =>
    match oracle steps with
    | AgentDecision.answer a => AgentOutcome.final a steps
    | AgentDecision.act name input =>
      reactGo tools oracle n
        (steps ++ [⟨name, input, toolObservation tools name input⟩])

/-- Modelled from the spec: the ReAct loop the LangChain
`AgentExecutor` runs is library code not under `src/`; per the spec
(§4.6) each iteration asks the model (the `oracle`, standing for the LLM
given the question, tool catalogue and transcript) for an action or a
final answer, executes the named tool — recovering from an unparsable or
unknown action by feeding back a retry observation — and stops after at
most `maxIterations` steps, returning a best-available answer tagged as
iteration-exhausted when the budget runs out. -/
def runReActLoop (tools : List (String × (String → String)))
    (oracle : List AgentStep → AgentDecision) (maxIterations : Nat) :
    AgentOutcome :=
  reactGo tools oracle maxIterations []

/-- `max_iterations=5` passed by `ResearchAgent.create_agent` to
`initialize_agent`. -/
def createAgentMaxIterations : Nat := 5

/-- The conversational agent instruction text
(`AgentConfig.get_conversational_agent_prefix`): the rule that the agent
must always use a tool first appears here, as prompt text. -/
def conversationalAgentRules : String :=
  "You are a research assistant that ALWAYS uses tools to find information before answering.\n\nYou have access to these tools:\n- search_documents: Search the uploaded PDF documents\n- search_web: Search the internet for current or missing information\n- summarize_content: Summarize document content\n\nCRITICAL RULES:\n1. ALWAYS use at least one tool before giving a final answer\n2. For questions about recent events, current AI models, news, or anything after 2023: use search_web\n3. For questions about uploaded documents: use search_documents\n4. For summary requests: use summarize_content\n5. You may call multiple tools in sequence\n6. Never say you don't have access to information without trying search_web first\n\nYou have access to the following tools:"

/-! ## Helper lemmas -/

theorem absorbExn_isOk (handler : PyExn → String)
    (x : Except PyExn String) : (absorbExn handler x).isOk := by
  cases x <;> rfl

theorem reactGo_steps_length_le (tools : List (String × (String → String)))
    (oracle : List AgentStep → AgentDecision) :
    ∀ (n : Nat) (steps : List AgentStep),
      ((reactGo tools oracle n steps).steps).length ≤ steps.length + n := by
  intro n
  induction n with
  | zero => intro steps; simp [reactGo, AgentOutcome.steps]
  | succ n ih =>
    intro steps
    simp only [reactGo]
    cases oracle steps with
    | answer a => simp [AgentOutcome.steps]
    | act name input =>
      dsimp only
      have h := ih (steps ++ [⟨name, input, toolObservation tools name input⟩])
      simp only [List.length_append, List.length_cons, List.length_nil] at h
      omega

theorem reactGo_exhausted_length (tools : List (String × (String → String)))
    (oracle : List AgentStep → AgentDecision) :
    ∀ (n : Nat) (steps : List AgentStep) (b : String) (s : List AgentStep),
      reactGo tools oracle n steps = AgentOutcome.exhausted b s →
      s.length = steps.length + n := by
  intro n
  induction n with
  | zero =>
    intro steps b s h
    simp only [reactGo] at h
    cases h
    simp
  | succ n ih =>
    intro steps b s h
    simp only [reactGo] at h
    cases hdec : oracle steps with
    | answer a => rw [hdec] at h; cases h
    | act name input =>
      rw [hdec] at h
      have := ih _ _ _ h
      simp only [List.length_append, List.length_cons, List.length_nil] at this
      omega

/-- The two messages `save_context` appends for one exchange. -/
def exchangeMessages (qa : String × String) : List ChatMessage :=
  [⟨MsgType.human, qa.1⟩, ⟨MsgType.ai, qa.2⟩]

theorem recordAll_memory_type (qas : List (String × String)) :
    ∀ m : ConversationMemoryManager,
      (recordAll m qas).memory_type = m.memory_type := by
  induction qas with
  | nil => intro m; rfl
  | cons qa rest ih =>
    intro m
    simpa [recordAll, ConversationMemoryManager.add_exchange] using
      ih (m.add_exchange qa.1 qa.2)

theorem recordAll_messages (qas : List (String × String)) :
    ∀ m : ConversationMemoryManager,
      (recordAll m qas).messages = m.messages ++ qas.flatMap exchangeMessages := by
  induction qas with
  | nil => intro m; simp [recordAll]
  | cons qa rest ih =>
    intro m
    have h := ih (m.add_exchange qa.1 qa.2)
    simp only [recordAll, List.foldl_cons] at h ⊢
    rw [h]
    simp [ConversationMemoryManager.add_exchange, exchangeMessages]

theorem flatMap_pair_length {α β : Type} (f : α → List β)
    (h2 : ∀ x, (f x).length = 2) (l : List α) :
    (l.flatMap f).length = 2 * l.length := by
  induction l with
  | nil => simp
  | cons a t ih =>
    simp [List.flatMap_cons, h2 a, ih]
    omega

theorem flatMap_pair_drop {α β : Type} (f : α → List β)
    (h2 : ∀ x, (f x).length = 2) (l : List α) :
    ∀ j : Nat, (l.flatMap f).drop (2 * j) = (l.drop j).flatMap f := by
  induction l with
  | nil => intro j; simp
  | cons a t ih =>
    intro j
    cases j with
    | zero => simp
    | succ i =>
      rw [List.flatMap_cons]
      have hlen : 2 * (i + 1) = (f a).length + 2 * i := by rw [h2 a]; omega
      rw [hlen, List.drop_append, ih i, List.drop_succ_cons]

theorem citeLoop_mem {c : Citation} :
    ∀ {srcs : List Document} {seen : List String},
      c ∈ citeLoop srcs seen → ∃ d, d ∈ srcs ∧ c = mkCitation d := by
  intro srcs
  induction srcs with
  | nil => intro seen h; simp [citeLoop] at h
  | cons d rest ih =>
    intro seen h
    simp only [citeLoop] at h
    split at h
    · obtain ⟨d', hd', hc⟩ := ih h
      exact ⟨d', List.mem_cons_of_mem _ hd', hc⟩
    · rcases List.mem_cons.mp h with hc | h'
      · exact ⟨d, List.mem_cons_self _ _, hc⟩
      · obtain ⟨d', hd', hc⟩ := ih h'
        exact ⟨d', List.mem_cons_of_mem _ hd', hc⟩

theorem citeLoop_all_seen :
    ∀ (l : List Document) (seen : List String),
      (∀ d ∈ l, sourceId d ∈ seen) → citeLoop l seen = [] := by
  intro l
  induction l with
  | nil => intro seen _; rfl
  | cons d rest ih =>
    intro seen h
    simp only [citeLoop, if_pos (h d (List.mem_cons_self _ _))]
    exact ih seen fun d' hd' => h d' (List.mem_cons_of_mem _ hd')

/-- A concrete retrieved chunk whose text is 200 characters long. -/
def longDoc : Document :=
  { page_content := String.mk (List.replicate 200 'a')
    metadata := { filename := some "intro.pdf", page := some "1", chunk_id := some 0 } }

/-- A concrete retrieved chunk with no provenance metadata. -/
def noMetaDoc1 : Document :=
  { page_content := "alpha", metadata := { filename := none, page := none, chunk_id := some 0 } }

/-- A second concrete retrieved chunk with no provenance metadata. -/
def noMetaDoc2 : Document :=
  { page_content := "beta", metadata := { filename := none, page := none, chunk_id := some 1 } }

/-! ## Citation dedup bookkeeping (C1) -/

/-- How many documents of the batch carry the pair `p`. -/
def pairOccurrences (sources : List Document) (p : String × String) : Nat :=
  ((sources.map pairOf).filter (fun q => q = p)).length

/-- The claim's `N` is `sources.length`; its `M`: how many documents have
a `(filename, page)` pair that also occurs elsewhere in the batch. -/
def duplicatedCount (sources : List Document) : Nat :=
  ((sources.map pairOf).filter
    (fun p => 2 ≤ pairOccurrences sources p)).length

/-- The claim's `distinct_pairs`: the number of distinct pairs among the
duplicated documents. -/
def distinctDuplicatedPairs (sources : List Document) : Nat :=
  ((sources.map pairOf).filter
    (fun p => 2 ≤ pairOccurrences sources p)).dedup.length

/-- On the given batch, the string key `f"{filename}:page{page}"`
separates documents exactly as the `(filename, page)` pair does.  This
holds for every realistic batch (page values are numerals or the
defaults, which contain no `":page"` marker); it rules out only
adversarial filenames that replay the `":page"` separator. -/
abbrev KeyFaithful (sources : List Document) : Prop :=
  ∀ x ∈ sources, ∀ y ∈ sources, sourceId x = sourceId y → pairOf x = pairOf y

theorem sourceId_eq_of_pairOf_eq {x y : Document} (h : pairOf x = pairOf y) :
    sourceId x = sourceId y := by
  have h1 : getFilename x.metadata = getFilename y.metadata :=
    congrArg Prod.fst h
  have h2 : getPage x.metadata = getPage y.metadata := congrArg Prod.snd h
  simp [sourceId, h1, h2]

theorem KeyFaithful.tail {d : Document} {rest : List Document}
    (h : KeyFaithful (d :: rest)) : KeyFaithful rest :=
  fun x hx y hy => h x (List.mem_cons_of_mem _ hx) y (List.mem_cons_of_mem _ hy)

theorem citeLoop_eq_firstOccurrences :
    ∀ (srcs : List Document) (seen : List String)
      (seenPairs : List (String × String)),
      KeyFaithful srcs →
      (∀ x ∈ srcs, (sourceId x ∈ seen ↔ pairOf x ∈ seenPairs)) →
      citeLoop srcs seen =
        (firstOccurrences pairOf
          (srcs.filter (fun x => pairOf x ∉ seenPairs))).map mkCitation := by
  intro srcs
  induction srcs with
  | nil => intro seen seenPairs _ _; simp [citeLoop, firstOccurrences]
  | cons d rest ih =>
    intro seen seenPairs hkf hseen
    by_cases hd : sourceId d ∈ seen
    · have hdp : pairOf d ∈ seenPairs :=
        (hseen d (List.mem_cons_self _ _)).mp hd
      have hfilter : (d :: rest).filter (fun x => pairOf x ∉ seenPairs)
          = rest.filter (fun x => pairOf x ∉ seenPairs) := by
        simp [List.filter_cons, hdp]
      rw [hfilter]
      simp only [citeLoop, if_pos hd]
      exact ih seen seenPairs hkf.tail
        (fun x hx => hseen x (List.mem_cons_of_mem _ hx))
    · have hdp : pairOf d ∉ seenPairs :=
        fun hmem => hd ((hseen d (List.mem_cons_self _ _)).mpr hmem)
      have hfilter : (d :: rest).filter (fun x => pairOf x ∉ seenPairs)
          = d :: rest.filter (fun x => pairOf x ∉ seenPairs) := by
        simp [List.filter_cons, hdp]
      rw [hfilter]
      simp only [citeLoop, if_neg hd, firstOccurrences, List.map_cons]
      congr 1
      have hmerge : (rest.filter (fun x => pairOf x ∉ seenPairs)).filter
            (fun b => pairOf b ≠ pairOf d)
          = rest.filter (fun x => pairOf x ∉ (pairOf d :: seenPairs)) := by
        rw [List.filter_filter]
        apply List.filter_congr
        intro x _
        simp only [List.mem_cons, not_or, decide_not]
        cases hxd : decide (pairOf x = pairOf d) <;>
          cases hxs : decide (pairOf x ∈ seenPairs) <;>
            simp_all
      rw [hmerge]
      apply ih (sourceId d :: seen) (pairOf d :: seenPairs) hkf.tail
      intro x hx
      constructor
      · intro hmem
        rcases List.mem_cons.mp hmem with heq | hmem'
        · exact List.mem_cons.mpr (Or.inl
            (hkf x (List.mem_cons_of_mem _ hx) d (List.mem_cons_self _ _) heq))
        · exact List.mem_cons_of_mem _
            ((hseen x (List.mem_cons_of_mem _ hx)).mp hmem')
      · intro hmem
        rcases List.mem_cons.mp hmem with heq | hmem'
        · exact List.mem_cons.mpr (Or.inl (sourceId_eq_of_pairOf_eq heq))
        · exact List.mem_cons_of_mem _
            ((hseen x (List.mem_cons_of_mem _ hx)).mpr hmem')

theorem firstOccurrences_length_aux {α β : Type} [DecidableEq β]
    (key : α → β) :
    ∀ (n : Nat) (l : List α), l.length ≤ n →
      (firstOccurrences key l).length = (l.map key).toFinset.card := by
  intro n
  induction n with
  | zero =>
    intro l hl
    have : l = [] := List.eq_nil_of_length_eq_zero (Nat.le_zero.mp hl)
    subst this
    simp [firstOccurrences]
  | succ n ih =>
    intro l hl
    cases l with
    | nil => simp [firstOccurrences]
    | cons a rest =>
      have hrest : (rest.filter (fun b => key b ≠ key a)).length ≤ n := by
        have h1 := List.length_filter_le (fun b => decide (key b ≠ key a)) rest
        simp only [List.length_cons] at hl
        omega
      rw [firstOccurrences, List.length_cons, ih _ hrest]
      have herase : ((rest.filter (fun b => key b ≠ key a)).map key).toFinset
          = ((rest.map key).toFinset).erase (key a) := by
        ext x
        simp only [List.mem_toFinset, List.mem_map, List.mem_filter,
          Finset.mem_erase, decide_eq_true_eq]
        constructor
        · rintro ⟨b, ⟨hb, hbk⟩, rfl⟩
          exact ⟨hbk, b, hb, rfl⟩
        · rintro ⟨hx, b, hb, rfl⟩
          exact ⟨b, ⟨hb, hx⟩, rfl⟩
      rw [herase]
      have hins : ((a :: rest).map key).toFinset
          = insert (key a) (rest.map key).toFinset := by
        simp [List.map_cons]
      rw [hins]
      by_cases hmem : key a ∈ (rest.map key).toFinset
      · rw [Finset.insert_eq_self.mpr hmem]
        have := Finset.card_erase_add_one hmem
        omega
      · rw [Finset.card_insert_of_not_mem hmem,
          Finset.erase_eq_of_not_mem hmem]

theorem firstOccurrences_length {α β : Type} [DecidableEq β]
    (key : α → β) (l : List α) :
    (firstOccurrences key l).length = (l.map key).toFinset.card :=
  firstOccurrences_length_aux key l.length l (Nat.le_refl _)

theorem filter_count_length {α : Type} [DecidableEq α] (ps : List α) :
    (ps.filter (fun p => 2 ≤ ps.count p)).length
      = ∑ a ∈ ps.toFinset, if 2 ≤ ps.count a then ps.count a else 0 := by
  rw [← List.sum_toFinset_count_eq_length]
  have hsub : (ps.filter (fun p => 2 ≤ ps.count p)).toFinset ⊆ ps.toFinset := by
    intro x hx
    rw [List.mem_toFinset] at hx ⊢
    exact (List.mem_filter.mp hx).1
  have hzero : ∀ x ∈ ps.toFinset,
      x ∉ (ps.filter (fun p => 2 ≤ ps.count p)).toFinset →
        (ps.filter (fun p => 2 ≤ ps.count p)).count x = 0 := by
    intro x _ hx
    rw [List.mem_toFinset] at hx
    exact List.count_eq_zero.mpr hx
  rw [Finset.sum_subset hsub hzero]
  apply Finset.sum_congr rfl
  intro a _
  by_cases h : 2 ≤ ps.count a
  · rw [if_pos h, List.count_filter (by simpa using h)]
  · rw [if_neg h]
    apply List.count_eq_zero.mpr
    intro hmem
    rw [List.mem_filter] at hmem
    exact h (by simpa using hmem.2)

theorem filter_dedup_card {α : Type} [DecidableEq α] (ps : List α) :
    (ps.filter (fun p => 2 ≤ ps.count p)).dedup.length
      = ∑ a ∈ ps.toFinset, if 2 ≤ ps.count a then 1 else 0 := by
  rw [← List.card_toFinset]
  have h : (ps.filter (fun p => 2 ≤ ps.count p)).toFinset
      = ps.toFinset.filter (fun a => 2 ≤ ps.count a) := by
    ext x
    simp [List.mem_toFinset, List.mem_filter, Finset.mem_filter]
  rw [h, Finset.card_filter]

theorem dedup_length_formula {α : Type} [DecidableEq α] (ps : List α) :
    ps.dedup.length = ps.length -
      ((ps.filter (fun p => 2 ≤ ps.count p)).length -
        (ps.filter (fun p => 2 ≤ ps.count p)).dedup.length) := by
  have hN : ps.length = ∑ a ∈ ps.toFinset, ps.count a :=
    (List.sum_toFinset_count_eq_length ps).symm
  have hT : ps.dedup.length = ∑ a ∈ ps.toFinset, 1 := by
    rw [← List.card_toFinset, Finset.card_eq_sum_ones]
  have hM := filter_count_length ps
  have hD := filter_dedup_card ps
  have hkey : ps.dedup.length +
        (ps.filter (fun p => 2 ≤ ps.count p)).length
      = ps.length +
        (ps.filter (fun p => 2 ≤ ps.count p)).dedup.length := by
    rw [hN, hT, hM, hD, ← Finset.sum_add_distrib, ← Finset.sum_add_distrib]
    apply Finset.sum_congr rfl
    intro a ha
    by_cases h2 : 2 ≤ ps.count a
    · rw [if_pos h2, if_pos h2]; omega
    · rw [if_neg h2, if_neg h2]
      have hpos : 0 < ps.count a :=
        List.count_pos_iff.mpr (List.mem_toFinset.mp ha)
      omega
  have hDM : (ps.filter (fun p => 2 ≤ ps.count p)).dedup.length
      ≤ (ps.filter (fun p => 2 ≤ ps.count p)).length := by
    rw [hM, hD]
    apply Finset.sum_le_sum
    intro a _
    by_cases h2 : 2 ≤ ps.count a
    · rw [if_pos h2, if_pos h2]; omega
    · rw [if_neg h2, if_neg h2]
  have hMN : (ps.filter (fun p => 2 ≤ ps.count p)).length ≤ ps.length :=
    List.length_filter_le _ _
  omega

theorem countEq_eq_count {α : Type} [DecidableEq α] (ps : List α) (p : α) :
    (ps.filter (fun x => x = p)).length = ps.count p := by
  rw [List.count, List.countP_eq_length_filter]
  congr 1

theorem dedup_length_formula_filter {α : Type} [DecidableEq α]
    (ps : List α) :
    ps.dedup.length = ps.length -
      ((ps.filter (fun p => 2 ≤ (ps.filter (fun q => q = p)).length)).length -
        (ps.filter
          (fun p => 2 ≤ (ps.filter (fun q => q = p)).length)).dedup.length) := by
  have hc : ∀ p : α, (ps.filter (fun q => q = p)).length = ps.count p :=
    countEq_eq_count ps
  simp only [hc]
  exact dedup_length_formula ps

/-! ## Claim theorems -/

/-- C3: for every tool registry, every model behaviour and every
iteration budget, one run of the ReAct loop takes at most
`maxIterations` Thought/Action/Observation steps, and it terminates by
returning either a model-emitted final answer or — exactly when all
`maxIterations` iterations were spent on actions — a best-available
answer tagged as iteration-exhausted. -/
theorem agent_loop_bounded_termination
    (tools : List (String × (String → String)))
    (oracle : List AgentStep → AgentDecision) (maxIterations : Nat) :
    ((runReActLoop tools oracle maxIterations).steps).length ≤ maxIterations ∧
    ((∃ a s, runReActLoop tools oracle maxIterations = AgentOutcome.final a s) ∨
      (∃ b s, runReActLoop tools oracle maxIterations = AgentOutcome.exhausted b s)) ∧
    (∀ b s, runReActLoop tools oracle maxIterations = AgentOutcome.exhausted b s →
      s.length = maxIterations) := by
  refine ⟨?_, ?_, ?_⟩
  · have h := reactGo_steps_length_le tools oracle maxIterations []
    simpa [runReActLoop] using h
  · cases h : runReActLoop tools oracle maxIterations with
    | final a s => exact Or.inl ⟨a, s, rfl⟩
    | exhausted b s => exact Or.inr ⟨b, s, rfl⟩
  · intro b s h
    have := reactGo_exhausted_length tools oracle maxIterations [] b s h
    simpa using this

/-- Witness for C3 at an empty registry, an immediately answering model
and the default budget of 5. -/
theorem agent_loop_bounded_termination_witness :
    ((runReActLoop [] (fun _ => AgentDecision.answer "done") 5).steps).length ≤ 5 ∧
    ((∃ a s, runReActLoop [] (fun _ => AgentDecision.answer "done") 5
        = AgentOutcome.final a s) ∨
      (∃ b s, runReActLoop [] (fun _ => AgentDecision.answer "done") 5
        = AgentOutcome.exhausted b s)) ∧
    (∀ b s, runReActLoop [] (fun _ => AgentDecision.answer "done") 5
        = AgentOutcome.exhausted b s → s.length = 5) :=
  agent_loop_bounded_termination [] (fun _ => AgentDecision.answer "done") 5

/-- C4: for every input and every behaviour of the external
collaborators — including ones that raise — each of the three tools'
`_run` returns an ordinary string observation rather than propagating an
exception. -/
theorem tools_never_raise
    (similarity : String → Nat → Except PyExn (List Document))
    (env : WebEnv) (senv : SummarizeEnv)
    (query instruction : String) (maxResults : Nat) :
    (documentSearchRun similarity query).isOk ∧
    (webSearchRun env query maxResults).isOk ∧
    (summarizeRun senv instruction).isOk := by
  refine ⟨absorbExn_isOk _ _, ?_, absorbExn_isOk _ _⟩
  unfold webSearchRun
  split
  · exact absorbExn_isOk _ _
  · rfl

/-- C5: constructing the document splitter with an overlap at least as
large as the chunk size fails with a configuration error instead of
producing a splitter. -/
theorem splitter_rejects_large_overlap (chunk_size chunk_overlap : Nat)
    (h : chunk_size ≤ chunk_overlap) :
    ∃ e, DocumentSplitter.init (some chunk_size) (some chunk_overlap) =
      Except.error e := by
  refine ⟨"Got a larger chunk overlap (" ++ toString chunk_overlap ++
    ") than chunk size (" ++ toString chunk_size ++ "), should be smaller.", ?_⟩
  simp [DocumentSplitter.init, textSplitterCheck, if_pos h, Bind.bind,
    Except.bind]

/-- Witness for C5 at `chunk_size = 100`, `chunk_overlap = 100`. -/
theorem splitter_rejects_large_overlap_witness :
    100 ≤ 100 ∧
    ∃ e, DocumentSplitter.init (some 100) (some 100) = Except.error e :=
  ⟨by decide, splitter_rejects_large_overlap 100 100 (by decide)⟩

/-- C6: asking the QA chain before `create_chain`, or running the agent
before `create_agent`, fails immediately with the not-ready error and
performs zero invocations of the underlying chain or executor (the only
gateways to the embedding/LLM/web services). -/
theorem not_ready_rejected_before_external_calls (question query : String) :
    RetrievalQAChain.ask none question =
      (Except.error "Chain not created. Call create_chain() first", 0) ∧
    ResearchAgent.run none query =
      (Except.error "Agent not created. Call create_agent() first", 0) :=
  ⟨rfl, rfl⟩

/-- C2 counterexample: under `windowed(k = 1)`, after recording two
exchanges `get_history()` returns the two message dicts of the last
exchange — a sequence of length `2`, not `k = 1`. -/
theorem memory_window_counterexample :
    (recordAll (mkMemoryManager "buffer_window" 1)
        [("q1", "a1"), ("q2", "a2")]).get_history
      = [("user", "q2"), ("assistant", "a2")] ∧
    ¬ ((recordAll (mkMemoryManager "buffer_window" 1)
        [("q1", "a1"), ("q2", "a2")]).get_history.length = 1) := by
  decide

/-- C2 (amended): under `windowed(k)`, after recording any sequence of
exchanges, `get_history()` returns the message dicts of exactly the last
`k` recorded exchanges in insertion order — a user and an assistant
entry per exchange, hence `2·min(k, n)` entries, with the oldest
exchanges evicted first. -/
theorem memory_window_keeps_last_k (k : Nat) (qas : List (String × String)) :
    (recordAll (mkMemoryManager "buffer_window" k) qas).get_history
      = (qas.drop (qas.length - k)).flatMap exchangeDicts ∧
    (recordAll (mkMemoryManager "buffer_window" k) qas).get_history.length
      = 2 * min k qas.length := by
  have hmsg := recordAll_messages qas (mkMemoryManager "buffer_window" k)
  have htype := recordAll_memory_type qas (mkMemoryManager "buffer_window" k)
  have hex2 : ∀ qa : String × String, (exchangeMessages qa).length = 2 := by
    intro qa; rfl
  have hd2 : ∀ qa : String × String, (exchangeDicts qa).length = 2 := by
    intro qa; rfl
  have hk : (recordAll (mkMemoryManager "buffer_window" k) qas).k = k := by
    have : ∀ (l : List (String × String)) (m : ConversationMemoryManager),
        (recordAll m l).k = m.k := by
      intro l
      induction l with
      | nil => intro m; rfl
      | cons qa rest ih =>
        intro m
        simpa [recordAll, ConversationMemoryManager.add_exchange] using
          ih (m.add_exchange qa.1 qa.2)
    exact this qas _
  simp only [mkMemoryManager, List.nil_append] at hmsg htype hk ⊢
  have hload : (recordAll { memory_type := "buffer_window", k := k, messages := [] } qas).loadMessages
      = (qas.drop (qas.length - k)).flatMap exchangeMessages := by
    rw [ConversationMemoryManager.loadMessages, htype, hk, hmsg]
    have hbw : ¬ ("buffer_window" = "buffer") := by decide
    rw [if_neg hbw]
    rw [flatMap_pair_length exchangeMessages hex2 qas]
    have harith : 2 * qas.length - 2 * k = 2 * (qas.length - k) := by omega
    rw [harith, flatMap_pair_drop exchangeMessages hex2 qas (qas.length - k)]
  have hhist : (recordAll { memory_type := "buffer_window", k := k, messages := [] } qas).get_history
      = (qas.drop (qas.length - k)).flatMap exchangeDicts := by
    rw [ConversationMemoryManager.get_history, hload, List.map_flatMap]
    rfl
  refine ⟨hhist, ?_⟩
  rw [hhist, flatMap_pair_length exchangeDicts hd2]
  simp [List.length_drop]
  omega

/-- C7 counterexample: a model behaviour that immediately emits a final
answer makes the agent run terminate with a final answer although its
transcript contains zero tool invocations — the loop does not enforce
the at-least-one-tool rule. -/
theorem zero_tool_final_answer_counterexample :
    runReActLoop [] (fun _ => AgentDecision.answer "Paris")
        createAgentMaxIterations
      = AgentOutcome.final "Paris" [] ∧
    (AgentOutcome.final "Paris" ([] : List AgentStep)).steps.length = 0 :=
  ⟨rfl, rfl⟩

set_option maxRecDepth 40000 in
/-- C7 (amended): the at-least-one-tool rule of the memory-augmented
agent is advisory, not enforced: it is stated as instruction text in the
conversational agent's prompt, while the loop itself accepts an
immediate final answer — for every tool registry and positive iteration
budget, a model that answers at once yields a final answer with an empty
transcript (zero tool invocations). -/
theorem tool_rule_only_advisory (tools : List (String × (String → String)))
    (a : String) (n : Nat) (h : 1 ≤ n) :
    runReActLoop tools (fun _ => AgentDecision.answer a) n
      = AgentOutcome.final a [] ∧
    strContainsSub conversationalAgentRules
      "ALWAYS use at least one tool before giving a final answer" = true := by
  constructor
  · cases n with
    | zero => omega
    | succ m => rfl
  · decide

/-- Witness for C7 (amended) at an empty registry and `n = 5`. -/
theorem tool_rule_only_advisory_witness :
    1 ≤ 5 ∧
    (runReActLoop [] (fun _ => AgentDecision.answer "x") 5
        = AgentOutcome.final "x" [] ∧
      strContainsSub conversationalAgentRules
        "ALWAYS use at least one tool before giving a final answer" = true) :=
  ⟨by decide, tool_rule_only_advisory [] "x" 5 (by decide)⟩

/-- C1: on every batch of retrieved documents whose string keys separate
documents exactly as their `(filename, page)` pairs do, citation
extraction keeps exactly the first occurrence of each distinct pair in
first-seen order, and the number of citations is
`N - (M - distinct_pairs)` where `N` is the batch size, `M` counts the
documents whose pair also occurs elsewhere, and `distinct_pairs` counts
the distinct pairs among those duplicated documents. -/
theorem citation_dedup_first_seen (answer : String) (sources : List Document)
    (hkf : KeyFaithful sources) :
    (format_answer_with_sources answer sources).citations
      = (firstOccurrences pairOf sources).map mkCitation ∧
    (format_answer_with_sources answer sources).citations.length
      = sources.length -
        (duplicatedCount sources - distinctDuplicatedPairs sources) := by
  have hfilter : sources.filter
      (fun x => pairOf x ∉ ([] : List (String × String))) = sources := by
    apply List.filter_eq_self.mpr
    intro a _
    simp
  have hmain : citeLoop sources []
      = (firstOccurrences pairOf sources).map mkCitation := by
    have h := citeLoop_eq_firstOccurrences sources [] [] hkf (by simp)
    rwa [hfilter] at h
  refine ⟨hmain, ?_⟩
  show (citeLoop sources []).length = _
  rw [hmain, List.length_map, firstOccurrences_length, List.card_toFinset,
    dedup_length_formula_filter (sources.map pairOf)]
  simp only [duplicatedCount, distinctDuplicatedPairs, pairOccurrences,
    List.length_map]

/-- A retrieved chunk: page 1 of `intro.pdf`. -/
def dupDocA : Document :=
  { page_content := "text one"
    metadata := { filename := some "intro.pdf", page := some "1", chunk_id := some 0 } }

/-- Another chunk of the same page of the same file. -/
def dupDocB : Document :=
  { page_content := "text two"
    metadata := { filename := some "intro.pdf", page := some "1", chunk_id := some 1 } }

/-- A chunk of a different page of the same file. -/
def dupDocC : Document :=
  { page_content := "text three"
    metadata := { filename := some "intro.pdf", page := some "3", chunk_id := some 2 } }

/-- Witness for C1 at a 3-chunk batch with one duplicated pair. -/
theorem citation_dedup_first_seen_witness :
    KeyFaithful [dupDocA, dupDocB, dupDocC] ∧
    ((format_answer_with_sources "ans" [dupDocA, dupDocB, dupDocC]).citations
        = (firstOccurrences pairOf [dupDocA, dupDocB, dupDocC]).map mkCitation ∧
      (format_answer_with_sources "ans" [dupDocA, dupDocB, dupDocC]).citations.length
        = ([dupDocA, dupDocB, dupDocC] : List Document).length -
          (duplicatedCount [dupDocA, dupDocB, dupDocC]
            - distinctDuplicatedPairs [dupDocA, dupDocB, dupDocC])) :=
  ⟨by decide, citation_dedup_first_seen "ans" [dupDocA, dupDocB, dupDocC]
    (by decide)⟩

/-- C8 counterexample: for a retrieved chunk whose text is 200
characters long, the citation's `content_preview` has length 203 — the
code appends a literal `"..."` after taking the first 200 characters, so
the preview is not bounded by 200. -/
theorem preview_length_counterexample :
    ((format_answer_with_sources "ans" [longDoc]).citations.map
        (fun c => c.content_preview.length)) = [203] ∧ ¬ (203 ≤ 200) := by
  constructor
  · rfl
  · decide

/-- C8 (amended): every citation's `content_preview` is the first 200
characters of its source chunk's text followed by the literal ellipsis
`"..."`, hence of length at most 203. -/
theorem preview_truncated_with_ellipsis (answer : String)
    (sources : List Document) (c : Citation)
    (h : c ∈ (format_answer_with_sources answer sources).citations) :
    c.content_preview.length ≤ 203 ∧
    ∃ d, d ∈ sources ∧
      c.content_preview = String.mk (d.page_content.data.take 200) ++ "..." := by
  obtain ⟨d, hd, hc⟩ := citeLoop_mem h
  subst hc
  constructor
  · show (String.mk (d.page_content.data.take 200) ++ "...").length ≤ 203
    rw [String.length_append]
    have h1 : (String.mk (d.page_content.data.take 200)).length
        = (d.page_content.data.take 200).length := rfl
    have h2 : (d.page_content.data.take 200).length ≤ 200 := by
      simp [List.length_take]
    have h3 : ("..." : String).length = 3 := rfl
    omega
  · exact ⟨d, hd, rfl⟩

/-- Witness for C8 (amended) at the 200-character chunk. -/
theorem preview_truncated_with_ellipsis_witness :
    (mkCitation longDoc ∈
        (format_answer_with_sources "ans" [longDoc]).citations) ∧
    ((mkCitation longDoc).content_preview.length ≤ 203 ∧
      ∃ d, d ∈ [longDoc] ∧ (mkCitation longDoc).content_preview
          = String.mk (d.page_content.data.take 200) ++ "...") :=
  have hm : mkCitation longDoc ∈
      (format_answer_with_sources "ans" [longDoc]).citations := by
    simp [format_answer_with_sources, citeLoop]
  ⟨hm, preview_truncated_with_ellipsis "ans" [longDoc] (mkCitation longDoc) hm⟩

/-- C10: citation extraction is total on documents with missing
provenance metadata: when every retrieved document lacks both the
`filename` and the `page` key, the defaults `"Unknown"` and `"?"` are
substituted and they participate in the dedup key like ordinary values —
all such documents collapse into the single citation of the first one. -/
theorem missing_metadata_defaults (answer : String) (docs : List Document)
    (d0 : Document) (rest : List Document) (hcons : docs = d0 :: rest)
    (hmiss : ∀ d ∈ docs, d.metadata.filename = none ∧ d.metadata.page = none) :
    (format_answer_with_sources answer docs).citations = [mkCitation d0] ∧
    (mkCitation d0).filename = "Unknown" ∧ (mkCitation d0).page = "?" := by
  subst hcons
  have hid : ∀ d ∈ d0 :: rest, sourceId d = "Unknown:page?" := by
    intro d hd
    obtain ⟨hf, hp⟩ := hmiss d hd
    simp [sourceId, getFilename, getPage, hf, hp]
  have h0 := hmiss d0 (List.mem_cons_self _ _)
  refine ⟨?_, ?_, ?_⟩
  · show citeLoop (d0 :: rest) [] = [mkCitation d0]
    simp only [citeLoop, List.not_mem_nil, if_neg (fun h => h)]
    rw [citeLoop_all_seen rest [sourceId d0]]
    intro d hd
    rw [hid d (List.mem_cons_of_mem _ hd), hid d0 (List.mem_cons_self _ _)]
    exact List.mem_singleton.mpr rfl
  · simp [mkCitation, getFilename, h0.1]
  · simp [mkCitation, getPage, h0.2]

/-- Witness for C10 at two concrete metadata-free documents. -/
theorem missing_metadata_defaults_witness :
    (∀ d ∈ [noMetaDoc1, noMetaDoc2],
        d.metadata.filename = none ∧ d.metadata.page = none) ∧
    ((format_answer_with_sources "a" [noMetaDoc1, noMetaDoc2]).citations
        = [mkCitation noMetaDoc1] ∧
      (mkCitation noMetaDoc1).filename = "Unknown" ∧
      (mkCitation noMetaDoc1).page = "?") :=
  ⟨by decide, missing_metadata_defaults "a" [noMetaDoc1, noMetaDoc2]
    noMetaDoc1 [noMetaDoc2] rfl (by decide)⟩

/-- C9: clearing the conversation memory empties the history while
leaving the configured memory mode and window size unchanged. -/
theorem clear_preserves_mode_and_k (m : ConversationMemoryManager) :
    m.clear.memory_type = m.memory_type ∧
    m.clear.k = m.k ∧
    m.clear.get_history = [] := by
  refine ⟨rfl, rfl, ?_⟩
  simp [ConversationMemoryManager.get_history,
    ConversationMemoryManager.loadMessages, ConversationMemoryManager.clear]

end ResearchAssistant
